import Mathlib

/-!
Verification of the swarm coordinator (src/swarm/SwarmCoordinator.ts) and the
lifecycle state machine (src/lifecycle/LifecycleManager.ts) of the
universal-metaagent-system repository, as a shallow embedding in Lean.

Modelling conventions:
  - JavaScript numbers are embedded as exact rationals (`ℚ`) for the load and
    reputation values, `Int` for priorities and `Nat` for counts and lengths.
  - `Date` timestamps are `Nat` ticks threaded explicitly through operations;
    `Date.now()` is a `now` parameter.
  - JS `Map` objects are association lists in insertion order; `Map.set` is
    replace-or-append, `Map.delete` filters by key.  `Array.from(map.values())`
    is the list itself.
  - Event emission (`this.emit(...)`) has no effect on coordinator or
    lifecycle state and is not modelled; `setTimeout`-scheduled callbacks are
    modelled as separate operations (the value returned alongside a state
    records whether such a callback was scheduled).
  - An agent's `executeTask` call is an oracle `execOk : String → String →
    Bool` giving, per (node id, task id), whether execution succeeds.
-/

/-! ## Lifecycle state machine: src/lifecycle/LifecycleManager.ts -/

/-- `AgentState` (src/interfaces/types): the seven lifecycle states. -/
inductive AgentState
  | created
  | initializing
  | running
  | suspended
  | terminating
  | terminated
  | error
deriving DecidableEq, Repr

/-- `LifecycleManager.VALID_TRANSITIONS` (LifecycleManager.ts lines 34-42). -/
def VALID_TRANSITIONS : AgentState → List AgentState
  | .created => [.initializing, .error]
  | .initializing => [.running, .error, .terminated]
  | .running => [.suspended, .terminating, .error]
  | .suspended => [.running, .terminating, .error]
  | .terminating => [.terminated, .error]
  | .terminated => []
  | .error => [.initializing, .terminating, .terminated]

/-- `StateTransition` (LifecycleManager.ts lines 4-10).  `from` is a Lean
keyword, so the field is `from_`.  Of the free-form `metadata` record the
model keeps the one key the code reads back, `checkpoint === true`
(`checkpointMeta`); `timestamp` is a tick. -/
structure StateTransition where
  from_ : AgentState
  to_ : AgentState
  timestamp : Nat
  reason : Option String
  checkpointMeta : Bool
deriving DecidableEq, Repr

/-- The mutable fields of a `LifecycleManager` that the verified operations
touch: `currentState`, `stateHistory`, `retryCount`, and the two policy
fields the error handler reads (`maxRetries`, `autoRestart`).  The
checkpoint timer is a scheduling concern and is not part of the state. -/
structure LifecycleManager where
  currentState : AgentState
  stateHistory : List StateTransition
  retryCount : Nat
  maxRetries : Nat
  autoRestart : Bool
deriving DecidableEq, Repr

/-- The state right after the constructor (lines 44-58): state `created`,
empty history, default policy. -/
def LifecycleManager.init : LifecycleManager :=
  { currentState := .created
    stateHistory := []
    retryCount := 0
    maxRetries := 3
    autoRestart := false }

/-- `canTransitionTo` (lines 125-128). -/
def canTransitionTo (m : LifecycleManager) (newState : AgentState) : Bool :=
  (VALID_TRANSITIONS m.currentState).contains newState

/-- `executeTransition` (lines 289-308): set the current state, push the
transition, reset the retry count on arrival at `running`. -/
def executeTransition (m : LifecycleManager) (t : StateTransition) : LifecycleManager :=
  { m with
    currentState := t.to_
    stateHistory := m.stateHistory ++ [t]
    retryCount := if t.to_ = AgentState.running then 0 else m.retryCount }

/-- `transitionTo` (lines 92-120): validate, then execute; returns whether the
transition happened together with the new state. -/
def transitionTo (m : LifecycleManager) (newState : AgentState) (now : Nat)
    (reason : Option String) : Bool × LifecycleManager :=
  if canTransitionTo m newState then
    (true, executeTransition m
      { from_ := m.currentState, to_ := newState, timestamp := now
        reason := reason, checkpointMeta := false })
  else
    (false, m)

/-- `forceTransitionTo` (lines 133-147): execute without validation. -/
def forceTransitionTo (m : LifecycleManager) (newState : AgentState) (now : Nat)
    (reason : String) : LifecycleManager :=
  executeTransition m
    { from_ := m.currentState, to_ := newState, timestamp := now
      reason := some ("FORCED: " ++ reason), checkpointMeta := false }

/-- `handleError` (lines 152-182): bump the retry counter and transition to
`error`; the delayed re-initialization attempt is a separately scheduled
callback and not part of this synchronous step. -/
def handleError (m : LifecycleManager) (now : Nat) (msg : String) : LifecycleManager :=
  let m1 := { m with retryCount := m.retryCount + 1 }
  let shouldRetry := m1.retryCount ≤ m1.maxRetries && m1.autoRestart &&
    m1.currentState ≠ AgentState.terminated
  if shouldRetry then
    (transitionTo m1 AgentState.error now (some ("Error occurred: " ++ msg))).2
  else
    (transitionTo m1 AgentState.error now (some ("Max retries exceeded: " ++ msg))).2

/-- `createCheckpoint` (lines 218-234): push a `current → current` entry whose
metadata carries `checkpoint: true`. -/
def createCheckpoint (m : LifecycleManager) (now : Nat) : LifecycleManager :=
  { m with
    stateHistory := m.stateHistory ++
      [{ from_ := m.currentState, to_ := m.currentState, timestamp := now
         reason := some "Checkpoint", checkpointMeta := true }] }

/-- `getLastCheckpoint` (lines 280-284).  The source calls
`this.stateHistory.reverse()`, and JavaScript `Array.prototype.reverse`
reverses the array IN PLACE, so the operation both returns the most recent
checkpoint and leaves the stored history reversed; the model returns the
search result together with the mutated manager. -/
def getLastCheckpoint (m : LifecycleManager) : Option StateTransition × LifecycleManager :=
  let reversed := m.stateHistory.reverse
  (reversed.find? (fun t => t.checkpointMeta), { m with stateHistory := reversed })

/-- `restoreFromCheckpoint` (lines 239-253): force-transition to the recorded
state of the argument checkpoint, or of the last checkpoint when none is
given; the returned flag is `false` where the source throws
`No checkpoint available for restoration`. -/
def restoreFromCheckpoint (m : LifecycleManager) (checkpoint : Option StateTransition)
    (now : Nat) : Bool × LifecycleManager :=
  match checkpoint with
  | some cp => (true, forceTransitionTo m cp.to_ now "Restored from checkpoint")
  | none =>
    match getLastCheckpoint m with
    | (some cp, m1) => (true, forceTransitionTo m1 cp.to_ now "Restored from checkpoint")
    | (none, m1) => (false, m1)

/-- `getUptime` (lines 258-264): `Date.now()` minus the timestamp of the first
history entry whose `to` is `created`, or 0 when there is none. -/
def getUptime (m : LifecycleManager) (now : Nat) : Int :=
  match m.stateHistory.find? (fun t => t.to_ == AgentState.created) with
  | none => 0
  | some t => (now : Int) - (t.timestamp : Int)

/-- The statistics record `getStatistics` (lines 336-363) derives (the
per-state duration map is a pure fold over the same history and is omitted). -/
structure LifecycleStatistics where
  currentState : AgentState
  uptime : Int
  stateChanges : Nat
  errorCount : Nat
  retryCount : Nat
  checkpointCount : Nat
deriving DecidableEq, Repr

/-- `getStatistics` (lines 336-363), a pure read of the state. -/
def getStatistics (m : LifecycleManager) (now : Nat) : LifecycleStatistics :=
  { currentState := m.currentState
    uptime := getUptime m now
    stateChanges := m.stateHistory.length
    errorCount := (m.stateHistory.filter (fun t => t.to_ == AgentState.error)).length
    retryCount := m.retryCount
    checkpointCount := (m.stateHistory.filter (fun t => t.checkpointMeta)).length }

/-- The lifecycle operations a run of the manager is built from.  `transition`
is `transitionTo`, `force` is `forceTransitionTo`, `checkpoint` is
`createCheckpoint`, `restore` is `restoreFromCheckpoint` with no argument,
`handleErr` is `handleError`. -/
inductive LMOp
  | transition (target : AgentState)
  | force (target : AgentState)
  | checkpoint
  | restore
  | handleErr (msg : String)
deriving DecidableEq, Repr

/-- Apply one operation at tick `now`. -/
def LMOp.apply (m : LifecycleManager) (now : Nat) : LMOp → LifecycleManager
  | .transition target => (transitionTo m target now none).2
  | .force target => forceTransitionTo m target now "op"
  | .checkpoint => createCheckpoint m now
  | .restore => (restoreFromCheckpoint m none now).2
  | .handleErr msg => handleError m now msg

/-- Run a list of operations, one tick apart. -/
def runOps (m : LifecycleManager) (now : Nat) : List LMOp → LifecycleManager
  | [] => m
  | op :: ops => runOps (op.apply m now) (now + 1) ops

/-- Whether `op` is a `force` operation. -/
def LMOp.isForce : LMOp → Bool
  | .force _ => true
  | _ => false

/-- The side condition of the amended uptime claim: the run never forces a
transition into `created` and never takes a checkpoint while the current
state is `created`. -/
def cleanOp (m : LifecycleManager) : LMOp → Bool
  | .force target => target ≠ AgentState.created
  | .checkpoint => m.currentState ≠ AgentState.created
  | _ => true

/-- `cleanOp` holding at every step of a run. -/
def cleanRun (m : LifecycleManager) (now : Nat) : List LMOp → Bool
  | [] => true
  | op :: ops => cleanOp m op && cleanRun (op.apply m now) (now + 1) ops

/-! ## Swarm coordinator: src/swarm/SwarmCoordinator.ts -/

/-- JS `hay.startsWith` on character lists (helper for `strIncludes`). -/
def charsStartWith (hay pat : List Char) : Bool :=
  match pat, hay with
  | [], _ => true
  | _ :: _, [] => false
  | p :: ps, h :: hs => p == h && charsStartWith hs ps

/-- JS `String.prototype.includes` (substring test), as used by
`cap.includes(req)` in `findSuitableNodes` and `calculateNodeScore`. -/
def strIncludes (hay pat : String) : Bool :=
  go hay.toList pat.toList
where
  /-- whether `pat` occurs in `hay` as a contiguous run -/
  go : List Char → List Char → Bool
  | [], pat => pat.isEmpty
  | h :: hs, pat => charsStartWith (h :: hs) pat || go hs pat

/-- `SwarmNode` (SwarmCoordinator.ts lines 13-20).  The `agent` reference is
replaced by the node `id`, through which the execution oracle is consulted;
`lastSeen` is a tick. -/
structure SwarmNode where
  id : String
  capabilities : List String
  loadFactor : ℚ
  reputation : ℚ
  lastSeen : Nat
deriving DecidableEq, Repr

/-- The `SwarmTask.status` union (line 29). -/
inductive TaskStatus
  | pending
  | assigned
  | executing
  | completed
  | failed
deriving DecidableEq, Repr

/-- `SwarmTask` (lines 22-33).  `assignedNodes` is optional exactly as in the
source (`assignedNodes?: string[]`).  The `subtasks` field, the stored
`result` and the unused `deadline` are omitted: subtask records are produced
by `decomposeSubtasks` below and live in the task map themselves. -/
structure SwarmTask where
  id : String
  description : String
  requirements : List String
  priority : Int
  assignedNodes : Option (List String)
  status : TaskStatus
  createdAt : Nat
deriving DecidableEq, Repr

/-- The `ConsensusProposal.type` union (line 38). -/
inductive ProposalType
  | task_assignment
  | resource_allocation
  | strategy_change
deriving DecidableEq, Repr

/-- `ConsensusProposal` (lines 35-43).  The `task_assignment` payload
`{taskId, candidateNodes}` is inlined as two fields; `votes` is the map as an
association list; `expiresAt` is timer bookkeeping and is omitted. -/
structure ConsensusProposal where
  id : String
  proposerId : String
  ptype : ProposalType
  payloadTaskId : String
  payloadCandidateNodes : List String
  votes : List (String × Bool)
  threshold : Nat
deriving DecidableEq, Repr

/-- `SwarmMetrics` (lines 45-52). -/
structure SwarmMetrics where
  totalNodes : Nat
  activeNodes : Nat
  completedTasks : Nat
  averageLoadFactor : ℚ
  consensusSuccessRate : ℚ
  averageTaskCompletionTime : ℚ
deriving DecidableEq, Repr

/-- The metrics the constructor (lines 63-77) starts with. -/
def initialMetrics : SwarmMetrics :=
  { totalNodes := 0, activeNodes := 0, completedTasks := 0
    averageLoadFactor := 0, consensusSuccessRate := 0
    averageTaskCompletionTime := 0 }

/-- The mutable state of a `SwarmCoordinator` (lines 54-61): the three maps
and the metrics record. -/
structure SwarmCoordinator where
  nodes : List SwarmNode
  tasks : List SwarmTask
  proposals : List ConsensusProposal
  metrics : SwarmMetrics
deriving DecidableEq, Repr

/-- `maxTaskRetries` (line 61). -/
def maxTaskRetries : Nat := 3

/-- `Map.set` on the node map: replace the entry with the same id, or append. -/
def setNode (nodes : List SwarmNode) (n : SwarmNode) : List SwarmNode :=
  if nodes.any (fun x => x.id == n.id) then
    nodes.map (fun x => if x.id == n.id then n else x)
  else
    nodes ++ [n]

/-- `Map.set` on the task map: replace the entry with the same id, or append. -/
def setTask (tasks : List SwarmTask) (t : SwarmTask) : List SwarmTask :=
  if tasks.any (fun x => x.id == t.id) then
    tasks.map (fun x => if x.id == t.id then t else x)
  else
    tasks ++ [t]

/-- `updateMetrics` (lines 456-465). -/
def updateMetrics (st : SwarmCoordinator) (now : Nat) : SwarmCoordinator :=
  let m1 := { st.metrics with
    totalNodes := st.nodes.length
    activeNodes := (st.nodes.filter (fun n => now - n.lastSeen < 60000)).length }
  let m2 :=
    if st.nodes.length > 0 then
      { m1 with
        averageLoadFactor :=
          (st.nodes.map (fun n => n.loadFactor)).sum / (st.nodes.length : ℚ) }
    else m1
  { st with metrics := m2 }

/-- `registerNode` (lines 82-105): insert a fresh node with `loadFactor = 0`
and `reputation = 100`. -/
def registerNode (st : SwarmCoordinator) (nodeId : String) (capabilities : List String)
    (now : Nat) : SwarmCoordinator :=
  let node : SwarmNode :=
    { id := nodeId, capabilities := capabilities, loadFactor := 0
      reputation := 100, lastSeen := now }
  let st1 := { st with nodes := setNode st.nodes node }
  let st2 := { st1 with metrics := { st1.metrics with totalNodes := st1.nodes.length } }
  updateMetrics st2 now

/-- `calculateNodeScore` (lines 253-269):
`40·capabilityMatch + 30·(1-loadFactor) + 30·(reputation/100)`. -/
def calculateNodeScore (node : SwarmNode) (task : SwarmTask) : ℚ :=
  let capabilityMatch : ℚ :=
    ((task.requirements.countP
        (fun req => node.capabilities.any (fun cap => strIncludes cap req))) : ℚ) /
      (task.requirements.length : ℚ)
  capabilityMatch * 40 + (1 - node.loadFactor) * 30 + (node.reputation / 100) * 30

/-- `findSuitableNodes` (lines 224-248): keep the nodes with every requirement
matched by some capability (substring test), `loadFactor < 0.8` and
`reputation > 50`, sorted by score descending (JS `sort` is stable; the model
uses a stable insertion sort with the same key). -/
def findSuitableNodes (nodes : List SwarmNode) (task : SwarmTask) : List SwarmNode :=
  let filtered := nodes.filter (fun node =>
    task.requirements.all
        (fun req => node.capabilities.any (fun cap => strIncludes cap req)) &&
      node.loadFactor < 8/10 && node.reputation > 50)
  List.insertionSort
    (fun a b => calculateNodeScore b task ≤ calculateNodeScore a task) filtered

/-- The three node mutations of `directAssignTask`:
`node.loadFactor = Math.min(1.0, node.loadFactor + 0.1)` (line 340). -/
def applyAssignLoad (n : SwarmNode) : SwarmNode :=
  { n with loadFactor := min 1 (n.loadFactor + 1/10) }

/-- `directAssignTask` success path (lines 361-362): release the load, bump
the reputation by 2 capped at 100. -/
def applySuccess (n : SwarmNode) : SwarmNode :=
  { n with
    loadFactor := max 0 (n.loadFactor - 1/10)
    reputation := min 100 (n.reputation + 2) }

/-- `directAssignTask` failure path (lines 369-370): release the load, drop
the reputation by 5 floored at 0. -/
def applyFailure (n : SwarmNode) : SwarmNode :=
  { n with
    loadFactor := max 0 (n.loadFactor - 1/10)
    reputation := max 0 (n.reputation - 5) }

/-- `directAssignTask` (lines 335-379).  Returns the new state together with
whether a retry was scheduled (`setTimeout(() => this.retryTask(task), 5000)`,
guarded by `!task.assignedNodes || task.assignedNodes.length <
maxTaskRetries`).  Note the source OVERWRITES `task.assignedNodes` with the
one-element list `[node.id]`. -/
def directAssignTask (execOk : String → String → Bool) (st : SwarmCoordinator)
    (task : SwarmTask) (node : SwarmNode) : SwarmCoordinator × Bool :=
  let task1 := { task with status := TaskStatus.assigned
                           assignedNodes := some [node.id] }
  let node1 := applyAssignLoad node
  let task2 := { task1 with status := TaskStatus.executing }
  if execOk node.id task.id then
    let task3 := { task2 with status := TaskStatus.completed }
    let node2 := applySuccess node1
    ({ st with
        tasks := setTask st.tasks task3
        nodes := setNode st.nodes node2
        metrics := { st.metrics with completedTasks := st.metrics.completedTasks + 1 } },
      false)
  else
    let task3 := { task2 with status := TaskStatus.failed }
    let node2 := applyFailure node1
    ({ st with
        tasks := setTask st.tasks task3
        nodes := setNode st.nodes node2 },
      task3.assignedNodes.isNone ||
        (task3.assignedNodes.getD []).length < maxTaskRetries)

/-- `assignTaskWithConsensus` (lines 274-294): record a proposal with a 60%
threshold; voting and resolution run on timers, so the synchronous step only
creates the proposal.  The source's random proposal id is `proposal_` plus
the task id here. -/
def assignTaskWithConsensus (st : SwarmCoordinator) (task : SwarmTask)
    (candidates : List SwarmNode) : SwarmCoordinator :=
  let proposal : ConsensusProposal :=
    { id := "proposal_" ++ task.id
      proposerId := "coordinator"
      ptype := ProposalType.task_assignment
      payloadTaskId := task.id
      payloadCandidateNodes := candidates.map (fun n => n.id)
      votes := []
      threshold := Nat.ceil ((st.nodes.length : ℚ) * (6/10)) }
  { st with proposals := st.proposals ++ [proposal] }

/-- `assignTask` (lines 203-219): pick candidates; consensus for critical
tasks, else direct assignment to the best candidate.  The `Bool` propagates
`directAssignTask`'s retry-scheduled flag. -/
def assignTask (execOk : String → String → Bool) (st : SwarmCoordinator)
    (task : SwarmTask) : SwarmCoordinator × Bool :=
  match findSuitableNodes st.nodes task with
  | [] => (st, false)
  | best :: rest =>
    if task.priority ≥ 8 || task.requirements.contains "critical" then
      (assignTaskWithConsensus st task (best :: rest), false)
    else
      directAssignTask execOk st task best

/-- `retryTask` (lines 384-397): reset the task to `pending`, search again
excluding `task.assignedNodes`, assign the best remaining candidate.  The
task is re-fetched by id (the source holds the live object). -/
def retryTask (execOk : String → String → Bool) (st : SwarmCoordinator)
    (taskId : String) : SwarmCoordinator × Bool :=
  match st.tasks.find? (fun t => t.id == taskId) with
  | none => (st, false)
  | some task =>
    let task1 := { task with status := TaskStatus.pending }
    let st1 := { st with tasks := setTask st.tasks task1 }
    let previousNodes := task.assignedNodes.getD []
    match (findSuitableNodes st1.nodes task1).filter
        (fun n => !(previousNodes.contains n.id)) with
    | [] => (st1, false)
    | best :: _ => directAssignTask execOk st1 task1 best

/-- The reset a task undergoes in `reassignNodeTasks` (lines 407-409): status
back to `pending`, the lost node dropped from `assignedNodes`. -/
def resetTaskForNode (t : SwarmTask) (nodeId : String) : SwarmTask :=
  { t with
    status := TaskStatus.pending
    assignedNodes := t.assignedNodes.map (fun l => l.filter (fun i => !(i == nodeId))) }

/-- One iteration of the `reassignNodeTasks` loop: store the reset task, then
re-enter `assignTask`. -/
def reassignOne (execOk : String → String → Bool) (nodeId : String)
    (st : SwarmCoordinator) (t : SwarmTask) : SwarmCoordinator :=
  let t1 := resetTaskForNode t nodeId
  (assignTask execOk { st with tasks := setTask st.tasks t1 } t1).1

/-- `reassignNodeTasks` (lines 402-412): every `assigned`/`executing` task
referencing the node is reset and reassigned. -/
def reassignNodeTasks (execOk : String → String → Bool) (st : SwarmCoordinator)
    (nodeId : String) : SwarmCoordinator :=
  let nodeTasks := st.tasks.filter (fun t =>
    (t.assignedNodes.getD []).contains nodeId &&
      (t.status == TaskStatus.assigned || t.status == TaskStatus.executing))
  nodeTasks.foldl (reassignOne execOk nodeId) st

/-- `unregisterNode` (lines 110-122): reassign the node's tasks, then delete
the node record and refresh the metrics; a no-op when the id is unknown. -/
def unregisterNode (execOk : String → String → Bool) (st : SwarmCoordinator)
    (nodeId : String) (now : Nat) : SwarmCoordinator :=
  if st.nodes.any (fun n => n.id == nodeId) then
    let st1 := reassignNodeTasks execOk st nodeId
    let st2 := { st1 with nodes := st1.nodes.filter (fun n => !(n.id == nodeId)) }
    let st3 := { st2 with metrics := { st2.metrics with totalNodes := st2.nodes.length } }
    updateMetrics st3 now
  else st

/-- `updateConsensusMetrics` (lines 470-474): exponential moving average of
the consensus success rate. -/
def updateConsensusMetrics (st : SwarmCoordinator) (success : Bool) : SwarmCoordinator :=
  { st with metrics := { st.metrics with
      consensusSuccessRate :=
        st.metrics.consensusSuccessRate * (9/10) + (if success then 1/10 else 0) } }

/-- `resolveConsensus` (lines 310-330): a missing proposal id is a guarded
no-op; otherwise count the yes votes, compare with the threshold, on success
assign the task to the first still-registered candidate, and delete the
proposal. -/
def resolveConsensus (execOk : String → String → Bool) (st : SwarmCoordinator)
    (proposalId : String) : SwarmCoordinator :=
  match st.proposals.find? (fun p => p.id == proposalId) with
  | none => st
  | some proposal =>
    let yesVotes := (proposal.votes.filter (fun v => v.2)).length
    let consensusReached := yesVotes ≥ proposal.threshold
    let st1 :=
      if consensusReached && proposal.ptype == ProposalType.task_assignment then
        match st.tasks.find? (fun t => t.id == proposal.payloadTaskId) with
        | none => st
        | some task =>
          match proposal.payloadCandidateNodes.filterMap
              (fun i => st.nodes.find? (fun n => n.id == i)) with
          | [] => st
          | c :: _ => (directAssignTask execOk st task c).1
      else st
    let st2 := { st1 with proposals := st1.proposals.filter (fun p => !(p.id == proposalId)) }
    updateConsensusMetrics st2 consensusReached

/-- `shouldDecomposeTask` (lines 479-483). -/
def shouldDecomposeTask (task : SwarmTask) : Bool :=
  task.requirements.length > 2 || task.priority ≥ 7 || task.description.length > 200

/-- The subtask list `decomposeTask` (lines 152-198) builds: two phase
subtasks when the requirements hold both `data_processing` and `analysis`,
else one subtask per requirement when there are more than two, else none. -/
def decomposeSubtasks (task : SwarmTask) (now : Nat) : List SwarmTask :=
  if task.requirements.contains "data_processing" &&
      task.requirements.contains "analysis" then
    [ { id := task.id ++ "_data"
        description := "Data processing for: " ++ task.description
        requirements := ["data_processing"]
        priority := task.priority
        assignedNodes := none
        status := TaskStatus.pending
        createdAt := now },
      { id := task.id ++ "_analysis"
        description := "Analysis for: " ++ task.description
        requirements := ["analysis"]
        priority := task.priority
        assignedNodes := none
        status := TaskStatus.pending
        createdAt := now } ]
  else if task.requirements.length > 2 then
    task.requirements.enum.map (fun p =>
      { id := task.id ++ "_sub_" ++ toString p.1
        description := "Subtask " ++ toString (p.1 + 1) ++ ": " ++ task.description
        requirements := [p.2]
        priority := task.priority
        assignedNodes := none
        status := TaskStatus.pending
        createdAt := now })
  else []

/-- `decomposeTask` (lines 152-198): store and assign each subtask; with no
subtasks fall back to assigning the task itself. -/
def decomposeTask (execOk : String → String → Bool) (st : SwarmCoordinator)
    (task : SwarmTask) (now : Nat) : SwarmCoordinator :=
  match decomposeSubtasks task now with
  | [] => (assignTask execOk st task).1
  | subtasks =>
    subtasks.foldl
      (fun s sub => (assignTask execOk { s with tasks := setTask s.tasks sub } sub).1) st

/-- `submitTask` (lines 127-147): store the fresh `pending` task (the random
task id is a parameter here), then decompose or assign according to
`shouldDecomposeTask`. -/
def submitTask (execOk : String → String → Bool) (st : SwarmCoordinator)
    (taskId description : String) (requirements : List String) (priority : Int)
    (now : Nat) : SwarmCoordinator :=
  let task : SwarmTask :=
    { id := taskId, description := description, requirements := requirements
      priority := priority, assignedNodes := none, status := TaskStatus.pending
      createdAt := now }
  let st1 := { st with tasks := setTask st.tasks task }
  if shouldDecomposeTask task then
    decomposeTask execOk st1 task now
  else
    (assignTask execOk st1 task).1

/-- The per-node effect of one pass through `directAssignTask`, as an event
alphabet for the reputation/load invariant: the assignment-time load bump,
then either the success or the failure update. -/
inductive NodeEvent
  | assignStart
  | taskSuccess
  | taskFailure
deriving DecidableEq, Repr

/-- Apply one node mutation. -/
def applyNodeEvent (n : SwarmNode) : NodeEvent → SwarmNode
  | .assignStart => applyAssignLoad n
  | .taskSuccess => applySuccess n
  | .taskFailure => applyFailure n

/-- Apply a sequence of node mutations. -/
def applyNodeEvents (n : SwarmNode) (evs : List NodeEvent) : SwarmNode :=
  evs.foldl applyNodeEvent n

/-- The bounds invariant of the claim: `loadFactor ∈ [0,1]`,
`reputation ∈ [0,100]`. -/
def nodeInv (n : SwarmNode) : Prop :=
  0 ≤ n.loadFactor ∧ n.loadFactor ≤ 1 ∧ 0 ≤ n.reputation ∧ n.reputation ≤ 100

instance (n : SwarmNode) : Decidable (nodeInv n) := by
  unfold nodeInv; infer_instance

/-- A task is safe for a node id when, if still `assigned` or `executing`, it
does not reference that node. -/
def safeTask (nodeId : String) (t : SwarmTask) : Prop :=
  (t.status = TaskStatus.assigned ∨ t.status = TaskStatus.executing) →
    nodeId ∉ t.assignedNodes.getD []

instance (nodeId : String) (t : SwarmTask) : Decidable (safeTask nodeId t) := by
  unfold safeTask; infer_instance

/-! ## Concrete scenarios used by the evaluation theorems -/

/-- A lifecycle run: one valid transition, then a checkpoint (history of two
entries, transition first, checkpoint second). -/
def c9_before : LifecycleManager :=
  createCheckpoint (transitionTo LifecycleManager.init AgentState.initializing 1 none).2 2

/-- The same manager after `restoreFromCheckpoint()` with no argument. -/
def c9_after : LifecycleManager := (restoreFromCheckpoint c9_before none 3).2

/-- An execution oracle under which every task execution fails. -/
def alwaysFail : String → String → Bool := fun _ _ => false

/-- An execution oracle under which every task execution succeeds. -/
def alwaysOk : String → String → Bool := fun _ _ => true

/-- Two healthy, fully capable nodes. -/
def chainNodes : List SwarmNode :=
  [ { id := "a", capabilities := ["x"], loadFactor := 0, reputation := 100, lastSeen := 0 },
    { id := "b", capabilities := ["x"], loadFactor := 0, reputation := 100, lastSeen := 0 } ]

/-- A plain low-priority task both nodes can run. -/
def chainTask : SwarmTask :=
  { id := "t", description := "d", requirements := ["x"], priority := 1
    assignedNodes := none, status := TaskStatus.pending, createdAt := 0 }

/-- Initial coordinator state for the retry chain. -/
def chainState0 : SwarmCoordinator :=
  { nodes := chainNodes, tasks := [chainTask], proposals := [], metrics := initialMetrics }

/-- Attempt 1: the first assignment (fails, schedules a retry). -/
def chainStep1 : SwarmCoordinator × Bool := assignTask alwaysFail chainState0 chainTask

/-- Attempt 2: the scheduled retry (fails, schedules a retry). -/
def chainStep2 : SwarmCoordinator × Bool := retryTask alwaysFail chainStep1.1 "t"

/-- Attempt 3: the next scheduled retry. -/
def chainStep3 : SwarmCoordinator × Bool := retryTask alwaysFail chainStep2.1 "t"

/-- Attempt 4: the next scheduled retry. -/
def chainStep4 : SwarmCoordinator × Bool := retryTask alwaysFail chainStep3.1 "t"

/-- A coordinator holding one node and one FAILED task still referencing it. -/
def c5state : SwarmCoordinator :=
  { nodes := [{ id := "n1", capabilities := ["x"], loadFactor := 0, reputation := 100,
                lastSeen := 0 }]
    tasks := [{ id := "t", description := "d", requirements := ["x"], priority := 1
                assignedNodes := some ["n1"], status := TaskStatus.failed, createdAt := 0 }]
    proposals := []
    metrics := initialMetrics }

/-- Node `a` at load 0 and the given reputation (chain bookkeeping). -/
def nodeRepA (r : ℚ) : SwarmNode :=
  { id := "a", capabilities := ["x"], loadFactor := 0, reputation := r, lastSeen := 0 }

/-- Node `b` at load 0 and the given reputation (chain bookkeeping). -/
def nodeRepB (r : ℚ) : SwarmNode :=
  { id := "b", capabilities := ["x"], loadFactor := 0, reputation := r, lastSeen := 0 }

/-- The chain task as left by a failed attempt on the given node. -/
def taskTried (n : String) : SwarmTask :=
  { id := "t", description := "d", requirements := ["x"], priority := 1
    assignedNodes := some [n], status := TaskStatus.failed, createdAt := 0 }

/-- The coordinator after attempt 1 (node `a` tried and penalized). -/
def chainState1 : SwarmCoordinator :=
  { nodes := [nodeRepA 95, nodeRepB 100], tasks := [taskTried "a"]
    proposals := [], metrics := initialMetrics }

/-- The coordinator after attempt 2 (node `b` tried and penalized). -/
def chainState2 : SwarmCoordinator :=
  { nodes := [nodeRepA 95, nodeRepB 95], tasks := [taskTried "b"]
    proposals := [], metrics := initialMetrics }

/-- The coordinator after attempt 3 (node `a` tried AGAIN and penalized). -/
def chainState3 : SwarmCoordinator :=
  { nodes := [nodeRepA 90, nodeRepB 95], tasks := [taskTried "a"]
    proposals := [], metrics := initialMetrics }

/-- The coordinator after attempt 4 (node `b` tried again and penalized). -/
def chainState4 : SwarmCoordinator :=
  { nodes := [nodeRepA 90, nodeRepB 90], tasks := [taskTried "b"]
    proposals := [], metrics := initialMetrics }

/-- Every entry of the history has a target other than `created`. -/
def historyAvoidsCreated (m : LifecycleManager) : Prop :=
  ∀ t ∈ m.stateHistory, t.to_ ≠ AgentState.created

/-! ## Theorems -/

/-- `created` is the target of no valid transition. -/
theorem created_not_valid_target (s : AgentState) :
    AgentState.created ∉ VALID_TRANSITIONS s := by
  cases s <;> simp [VALID_TRANSITIONS]

/-- `canTransitionTo` decides membership in the transition table. -/
theorem canTransitionTo_iff (m : LifecycleManager) (s : AgentState) :
    canTransitionTo m s = true ↔ s ∈ VALID_TRANSITIONS m.currentState := by
  simp [canTransitionTo]

/-- C1: `transitionTo(S')` returns true iff `S'` is in the allowed-transitions
set of the current state (the table being exactly the one of the claim); on
success it appends exactly the one new transition entry and sets the current
state to `S'`; on failure the state is returned unchanged. -/
theorem transitionTo_correct (m : LifecycleManager) (target : AgentState)
    (now : Nat) (reason : Option String) :
    ((transitionTo m target now reason).1 = true ↔
      target ∈ VALID_TRANSITIONS m.currentState) ∧
    ((transitionTo m target now reason).1 = true →
      (transitionTo m target now reason).2.currentState = target ∧
      (transitionTo m target now reason).2.stateHistory = m.stateHistory ++
        [{ from_ := m.currentState, to_ := target, timestamp := now
           reason := reason, checkpointMeta := false }]) ∧
    ((transitionTo m target now reason).1 = false →
      (transitionTo m target now reason).2 = m) ∧
    VALID_TRANSITIONS AgentState.created = [.initializing, .error] ∧
    VALID_TRANSITIONS AgentState.initializing = [.running, .error, .terminated] ∧
    VALID_TRANSITIONS AgentState.running = [.suspended, .terminating, .error] ∧
    VALID_TRANSITIONS AgentState.suspended = [.running, .terminating, .error] ∧
    VALID_TRANSITIONS AgentState.terminating = [.terminated, .error] ∧
    VALID_TRANSITIONS AgentState.terminated = [] ∧
    VALID_TRANSITIONS AgentState.error = [.initializing, .terminating, .terminated] := by
  by_cases h : canTransitionTo m target = true
  · refine ⟨?_, ?_, ?_, rfl, rfl, rfl, rfl, rfl, rfl, rfl⟩
    · rw [← canTransitionTo_iff m target]
      simp [transitionTo, h]
    · intro _
      simp [transitionTo, h, executeTransition]
    · intro hf
      simp [transitionTo, h] at hf
  · refine ⟨?_, ?_, ?_, rfl, rfl, rfl, rfl, rfl, rfl, rfl⟩
    · rw [← canTransitionTo_iff m target]
      simp [transitionTo, h]
    · intro ht
      simp [transitionTo, h] at ht
    · intro _
      simp [transitionTo, h]

/-- C9 (failing run): `restoreFromCheckpoint()` with no argument reverses the
stored history in place (`getLastCheckpoint` calls `Array.prototype.reverse`
on `stateHistory`), so the resulting history is not the old history plus a
suffix: the history is not append-only under this operation. -/
theorem restore_reverses_history :
    c9_before.stateHistory.map (fun t => t.checkpointMeta) = [false, true] ∧
    c9_after.stateHistory.map (fun t => t.checkpointMeta) = [true, false, false] ∧
    ∀ tail, c9_after.stateHistory ≠ c9_before.stateHistory ++ tail := by
  refine ⟨by decide, by decide, ?_⟩
  intro tail h
  have h2 : c9_after.stateHistory.map (fun t => t.checkpointMeta) =
      (c9_before.stateHistory ++ tail).map (fun t => t.checkpointMeta) := by rw [h]
  rw [List.map_append] at h2
  have e1 : c9_after.stateHistory.map (fun t => t.checkpointMeta) =
      [true, false, false] := by decide
  have e2 : c9_before.stateHistory.map (fun t => t.checkpointMeta) =
      [false, true] := by decide
  rw [e1, e2] at h2
  simp at h2

/-- A single clean operation preserves `historyAvoidsCreated`. -/
theorem apply_avoids_created (m : LifecycleManager) (now : Nat) (op : LMOp)
    (hop : cleanOp m op = true) (h : historyAvoidsCreated m) :
    historyAvoidsCreated (op.apply m now) := by
  cases op with
  | transition target =>
    by_cases hc : canTransitionTo m target = true
    · have htar : target ≠ AgentState.created := by
        intro he
        exact created_not_valid_target m.currentState
          (he ▸ (canTransitionTo_iff m target).1 hc)
      intro t ht
      simp [LMOp.apply, transitionTo, hc, executeTransition] at ht
      rcases ht with ht | ht
      · exact h t ht
      · rw [ht]; exact htar
    · intro t ht
      simp [LMOp.apply, transitionTo, hc] at ht
      exact h t ht
  | force target =>
    have htar : target ≠ AgentState.created := by
      simpa [cleanOp] using hop
    intro t ht
    simp [LMOp.apply, forceTransitionTo, executeTransition] at ht
    rcases ht with ht | ht
    · exact h t ht
    · rw [ht]; exact htar
  | checkpoint =>
    have hcur : m.currentState ≠ AgentState.created := by
      simpa [cleanOp] using hop
    intro t ht
    simp [LMOp.apply, createCheckpoint] at ht
    rcases ht with ht | ht
    · exact h t ht
    · rw [ht]; exact hcur
  | restore =>
    intro t ht
    simp only [LMOp.apply, restoreFromCheckpoint, getLastCheckpoint] at ht
    rcases hf : m.stateHistory.reverse.find? (fun t => t.checkpointMeta) with _ | cp
    · rw [hf] at ht
      simp at ht
      exact h t ht
    · have hcp : cp ∈ m.stateHistory := by
        exact List.mem_reverse.1 (List.mem_of_find?_eq_some hf)
      rw [hf] at ht
      simp [forceTransitionTo, executeTransition] at ht
      rcases ht with ht | ht
      · exact h t ht
      · rw [ht]; exact h cp hcp
  | handleErr msg =>
    intro t ht
    by_cases hc : canTransitionTo { m with retryCount := m.retryCount + 1 }
        AgentState.error = true
    · simp only [LMOp.apply, handleError] at ht
      split at ht <;>
        · simp [transitionTo, hc, executeTransition] at ht
          rcases ht with ht | ht
          · exact h t ht
          · rw [ht]; intro hcon; cases hcon
    · simp only [LMOp.apply, handleError] at ht
      split at ht <;>
        · simp [transitionTo, hc] at ht
          exact h t ht

/-- A clean run preserves `historyAvoidsCreated`. -/
theorem runOps_avoids_created (ops : List LMOp) (m : LifecycleManager) (now : Nat)
    (hclean : cleanRun m now ops = true) (h : historyAvoidsCreated m) :
    historyAvoidsCreated (runOps m now ops) := by
  induction ops generalizing m now with
  | nil => exact h
  | cons op ops ih =>
    simp only [cleanRun, Bool.and_eq_true] at hclean
    exact ih (op.apply m now) (now + 1) hclean.2
      (apply_avoids_created m now op hclean.1 h)

/-- A history with no `created`-target entry yields uptime 0. -/
theorem getUptime_eq_zero (m : LifecycleManager) (now : Nat)
    (h : historyAvoidsCreated m) : getUptime m now = 0 := by
  have : m.stateHistory.find? (fun t => t.to_ == AgentState.created) = none := by
    rw [List.find?_eq_none]
    intro t ht
    simpa using h t ht
  simp [getUptime, this]

/-- C10 (amended): in a run of lifecycle operations that never forces a
transition into `created` AND never takes a checkpoint while the state is
`created`, the history holds no entry targeting `created`, and `getUptime`
and `getStatistics().uptime` return 0: the machine starts in `created` with
an empty history and no valid transition targets `created`. -/
theorem uptime_zero_without_created_entries (ops : List LMOp) (now now2 : Nat)
    (h : cleanRun LifecycleManager.init now ops = true) :
    historyAvoidsCreated (runOps LifecycleManager.init now ops) ∧
    getUptime (runOps LifecycleManager.init now ops) now2 = 0 ∧
    (getStatistics (runOps LifecycleManager.init now ops) now2).uptime = 0 ∧
    LifecycleManager.init.stateHistory = [] ∧
    LifecycleManager.init.currentState = AgentState.created ∧
    (∀ s : AgentState, AgentState.created ∉ VALID_TRANSITIONS s) := by
  have h0 : historyAvoidsCreated LifecycleManager.init := by
    intro t ht
    simp [LifecycleManager.init] at ht
  have h1 := runOps_avoids_created ops LifecycleManager.init now h h0
  refine ⟨h1, getUptime_eq_zero _ now2 h1, ?_, rfl, rfl, created_not_valid_target⟩
  simp [getStatistics, getUptime_eq_zero _ now2 h1]

/-- Witness for the amended uptime claim: a clean three-step run (initialize,
run, checkpoint while running) has uptime 0. -/
theorem uptime_zero_without_created_entries_witness :
    getUptime (runOps LifecycleManager.init 0
      [LMOp.transition AgentState.initializing,
       LMOp.transition AgentState.running, LMOp.checkpoint]) 100 = 0 :=
  (uptime_zero_without_created_entries
    [LMOp.transition AgentState.initializing,
     LMOp.transition AgentState.running, LMOp.checkpoint] 0 100 (by decide)).2.1

/-- C10 (counterexample to the original claim): a run that never calls
`forceTransitionTo` at all, but calls `createCheckpoint` while the state is
still `created`, records a history entry with target `created` (the
checkpoint's `from → to` self-loop), and `getUptime` is then nonzero. -/
theorem uptime_nonzero_after_checkpoint_in_created :
    ([LMOp.checkpoint].all (fun op => !op.isForce) = true) ∧
    ((runOps LifecycleManager.init 5 [LMOp.checkpoint]).stateHistory.map
        (fun t => t.to_) = [AgentState.created]) ∧
    getUptime (runOps LifecycleManager.init 5 [LMOp.checkpoint]) 7 = 2 ∧
    getUptime (runOps LifecycleManager.init 5 [LMOp.checkpoint]) 7 ≠ 0 := by
  refine ⟨by decide, by decide, by decide, by decide⟩

/-- Membership in `setNode`: an element is the inserted node or an untouched
original with a different id. -/
theorem mem_setNode {nodes : List SwarmNode} {x n : SwarmNode}
    (h : n ∈ setNode nodes x) : n = x ∨ (n ∈ nodes ∧ n.id ≠ x.id) := by
  unfold setNode at h
  by_cases han : nodes.any (fun y => y.id == x.id) = true
  · rw [if_pos han] at h
    obtain ⟨a, ha, rfl⟩ := List.mem_map.1 h
    by_cases hid : (a.id == x.id) = true
    · left; simp [hid]
    · right
      simp only [hid]
      simp only [beq_iff_eq] at hid
      simpa [hid] using ha
  · rw [if_neg han] at h
    rcases List.mem_append.1 h with h | h
    · right
      refine ⟨h, ?_⟩
      simp only [List.any_eq_true, not_exists, not_and, Bool.not_eq_true] at han
      have := han n h
      simpa using this
    · left; simpa using h

/-- Membership in `setTask`: an element is the stored task or an untouched
original with a different id. -/
theorem mem_setTask {tasks : List SwarmTask} {x t : SwarmTask}
    (h : t ∈ setTask tasks x) : t = x ∨ (t ∈ tasks ∧ t.id ≠ x.id) := by
  unfold setTask at h
  by_cases han : tasks.any (fun y => y.id == x.id) = true
  · rw [if_pos han] at h
    obtain ⟨a, ha, rfl⟩ := List.mem_map.1 h
    by_cases hid : (a.id == x.id) = true
    · left; simp [hid]
    · right
      simp only [hid]
      simp only [beq_iff_eq] at hid
      simpa [hid] using ha
  · rw [if_neg han] at h
    rcases List.mem_append.1 h with h | h
    · right
      refine ⟨h, ?_⟩
      simp only [List.any_eq_true, not_exists, not_and, Bool.not_eq_true] at han
      have := han t h
      simpa using this
    · left; simpa using h

/-- Every node mutation of `directAssignTask` preserves the bounds. -/
theorem applyNodeEvent_inv (n : SwarmNode) (e : NodeEvent) (h : nodeInv n) :
    nodeInv (applyNodeEvent n e) := by
  obtain ⟨h1, h2, h3, h4⟩ := h
  cases e with
  | assignStart =>
    refine ⟨le_min (by norm_num) (by linarith), min_le_left _ _, h3, h4⟩
  | taskSuccess =>
    exact ⟨le_max_left _ _, max_le (by norm_num) (by linarith),
      le_min (by norm_num) (by linarith), min_le_left _ _⟩
  | taskFailure =>
    exact ⟨le_max_left _ _, max_le (by norm_num) (by linarith),
      le_max_left _ _, max_le (by norm_num) (by linarith)⟩

/-- The sequence version of the bounds invariant. -/
theorem applyNodeEvents_inv (evs : List NodeEvent) (n : SwarmNode) (h : nodeInv n) :
    nodeInv (applyNodeEvents n evs) := by
  induction evs generalizing n with
  | nil => exact h
  | cons e evs ih => exact ih (applyNodeEvent n e) (applyNodeEvent_inv n e h)

/-- Over a run without failures, reputation never decreases. -/
theorem reputation_mono_of_no_failure (evs : List NodeEvent) (n : SwarmNode)
    (h : nodeInv n) (hall : ∀ e ∈ evs, e ≠ NodeEvent.taskFailure) :
    n.reputation ≤ (applyNodeEvents n evs).reputation := by
  induction evs generalizing n with
  | nil => exact le_refl _
  | cons e evs ih =>
    have hstep : n.reputation ≤ (applyNodeEvent n e).reputation := by
      cases e with
      | assignStart => exact le_refl _
      | taskSuccess => exact le_min h.2.2.2 (by linarith)
      | taskFailure => exact absurd rfl (hall NodeEvent.taskFailure (by simp))
    exact le_trans hstep (ih (applyNodeEvent n e) (applyNodeEvent_inv n e h)
      (fun e he => hall e (List.mem_cons_of_mem _ he)))

/-- Over a run without successes, reputation never increases. -/
theorem reputation_antitone_of_no_success (evs : List NodeEvent) (n : SwarmNode)
    (h : nodeInv n) (hall : ∀ e ∈ evs, e ≠ NodeEvent.taskSuccess) :
    (applyNodeEvents n evs).reputation ≤ n.reputation := by
  induction evs generalizing n with
  | nil => exact le_refl _
  | cons e evs ih =>
    have hstep : (applyNodeEvent n e).reputation ≤ n.reputation := by
      cases e with
      | assignStart => exact le_refl _
      | taskSuccess => exact absurd rfl (hall NodeEvent.taskSuccess (by simp))
      | taskFailure => exact max_le h.2.2.1 (by linarith)
    exact le_trans (ih (applyNodeEvent n e) (applyNodeEvent_inv n e h)
      (fun e he => hall e (List.mem_cons_of_mem _ he))) hstep

/-- C2: registration starts a node at `loadFactor = 0`, `reputation = 100`
(inside the bounds); every node mutation of `directAssignTask` keeps
`loadFactor ∈ [0,1]` and `reputation ∈ [0,100]`; reputation moves by
`min(100, +2)` exactly on success and by `max(0, -5)` exactly on failure and
is untouched by the assignment-time load bump, hence is non-decreasing over
a run with no failure and non-increasing over a run with no success. -/
theorem node_bounds_and_reputation_monotone (st : SwarmCoordinator)
    (nodeId : String) (caps : List String) (now : Nat)
    (n : SwarmNode) (evs : List NodeEvent) (h : nodeInv n) :
    (∀ m ∈ (registerNode st nodeId caps now).nodes,
      m ∈ st.nodes ∨ (m.loadFactor = 0 ∧ m.reputation = 100 ∧ nodeInv m)) ∧
    nodeInv (applyNodeEvents n evs) ∧
    ((applyNodeEvent n NodeEvent.taskSuccess).reputation = min 100 (n.reputation + 2) ∧
      n.reputation ≤ (applyNodeEvent n NodeEvent.taskSuccess).reputation) ∧
    ((applyNodeEvent n NodeEvent.taskFailure).reputation = max 0 (n.reputation - 5) ∧
      (applyNodeEvent n NodeEvent.taskFailure).reputation ≤ n.reputation) ∧
    (applyNodeEvent n NodeEvent.assignStart).reputation = n.reputation ∧
    ((∀ e ∈ evs, e ≠ NodeEvent.taskFailure) →
      n.reputation ≤ (applyNodeEvents n evs).reputation) ∧
    ((∀ e ∈ evs, e ≠ NodeEvent.taskSuccess) →
      (applyNodeEvents n evs).reputation ≤ n.reputation) := by
  refine ⟨?_, applyNodeEvents_inv evs n h, ⟨rfl, le_min h.2.2.2 (by linarith)⟩,
    ⟨rfl, max_le h.2.2.1 (by linarith)⟩, rfl,
    reputation_mono_of_no_failure evs n h,
    reputation_antitone_of_no_success evs n h⟩
  intro m hm
  have hm2 : m ∈ setNode st.nodes
      { id := nodeId, capabilities := caps, loadFactor := 0
        reputation := 100, lastSeen := now } := by
    simpa [registerNode, updateMetrics] using hm
  rcases mem_setNode hm2 with hm3 | hm3
  · right
    rw [hm3]
    exact ⟨rfl, rfl, by norm_num [nodeInv]⟩
  · exact Or.inl hm3.1

/-- Witness for the node-bounds claim at a concrete node and run. -/
theorem node_bounds_witness :
    nodeInv (applyNodeEvents
      { id := "a", capabilities := [], loadFactor := 0, reputation := 100, lastSeen := 0 }
      [NodeEvent.assignStart, NodeEvent.taskSuccess, NodeEvent.assignStart,
       NodeEvent.taskFailure]) :=
  (node_bounds_and_reputation_monotone
    { nodes := [], tasks := [], proposals := [], metrics := initialMetrics }
    "a" [] 0 _ _ (by norm_num [nodeInv])).2.1

/-- `directAssignTask` never touches the proposal map. -/
theorem directAssignTask_proposals (execOk : String → String → Bool)
    (st : SwarmCoordinator) (task : SwarmTask) (node : SwarmNode) :
    ((directAssignTask execOk st task node).1).proposals = st.proposals := by
  unfold directAssignTask
  split <;> rfl

/-- After `resolveConsensus`, no proposal with the resolved id remains. -/
theorem resolveConsensus_discards (execOk : String → String → Bool)
    (st : SwarmCoordinator) (pid : String) :
    ∀ p ∈ (resolveConsensus execOk st pid).proposals, p.id ≠ pid := by
  intro p hp
  unfold resolveConsensus at hp
  rcases hf : st.proposals.find? (fun q => q.id == pid) with _ | q
  · rw [hf] at hp
    have := List.find?_eq_none.1 hf p hp
    simpa using this
  · rw [hf] at hp
    simp only [updateConsensusMetrics] at hp
    have := List.of_mem_filter hp
    simpa using this

/-- `resolveConsensus` on an id absent from the proposal map returns the
state unchanged (the existence-check guard). -/
theorem resolveConsensus_miss (execOk : String → String → Bool)
    (st : SwarmCoordinator) (pid : String)
    (h : st.proposals.find? (fun q => q.id == pid) = none) :
    resolveConsensus execOk st pid = st := by
  unfold resolveConsensus
  rw [h]

/-- C8: a proposal is resolved at most once: after `resolveConsensus` the
proposal is discarded, calling `resolveConsensus` again with the same id is
a no-op returning the state unchanged, and resolving a nonexistent id is
likewise a guarded no-op. -/
theorem resolveConsensus_at_most_once (execOk : String → String → Bool)
    (st : SwarmCoordinator) (pid : String) :
    (∀ p ∈ (resolveConsensus execOk st pid).proposals, p.id ≠ pid) ∧
    resolveConsensus execOk (resolveConsensus execOk st pid) pid =
      resolveConsensus execOk st pid ∧
    ((∀ p ∈ st.proposals, p.id ≠ pid) → resolveConsensus execOk st pid = st) := by
  refine ⟨resolveConsensus_discards execOk st pid, ?_, ?_⟩
  · apply resolveConsensus_miss
    rw [List.find?_eq_none]
    intro q hq
    simpa using resolveConsensus_discards execOk st pid q hq
  · intro h
    apply resolveConsensus_miss
    rw [List.find?_eq_none]
    intro q hq
    simpa using h q hq

/-- C6: `submitTask` decomposes exactly when `requirements.length > 2` or
`priority ≥ 7` or `description.length > 200`; decomposition's first matching
rule wins: both `data_processing` and `analysis` present gives exactly the
two phase subtasks with singleton requirement lists inheriting the parent's
priority; else more than two requirements gives one singleton-requirement
subtask per requirement element, each inheriting the priority; else no
subtask is produced and `decomposeTask` assigns the original task directly. -/
theorem decompose_rules (task : SwarmTask) (now : Nat)
    (execOk : String → String → Bool) (st : SwarmCoordinator) :
    (shouldDecomposeTask task = true ↔
      (2 < task.requirements.length ∨ 7 ≤ task.priority ∨
        200 < task.description.length)) ∧
    ("data_processing" ∈ task.requirements → "analysis" ∈ task.requirements →
      (decomposeSubtasks task now).map (fun s => (s.requirements, s.priority)) =
        [(["data_processing"], task.priority), (["analysis"], task.priority)]) ∧
    (¬ ("data_processing" ∈ task.requirements ∧ "analysis" ∈ task.requirements) →
      2 < task.requirements.length →
      ((decomposeSubtasks task now).map (fun s => s.requirements) =
        task.requirements.map (fun r => [r]) ∧
       ∀ s ∈ decomposeSubtasks task now, s.priority = task.priority)) ∧
    (¬ ("data_processing" ∈ task.requirements ∧ "analysis" ∈ task.requirements) →
      ¬ 2 < task.requirements.length → decomposeSubtasks task now = []) ∧
    (decomposeSubtasks task now = [] →
      decomposeTask execOk st task now = (assignTask execOk st task).1) := by
  refine ⟨?_, ?_, ?_, ?_, ?_⟩
  · simp only [shouldDecomposeTask, Bool.or_eq_true, decide_eq_true_eq]
    omega
  · intro h1 h2
    have hcond : (task.requirements.contains "data_processing" &&
        task.requirements.contains "analysis") = true := by
      simp only [Bool.and_eq_true]
      exact ⟨List.elem_iff.2 h1, List.elem_iff.2 h2⟩
    rw [decomposeSubtasks, if_pos hcond]
    rfl
  · intro h1 h2
    have hA : (task.requirements.contains "data_processing" &&
        task.requirements.contains "analysis") ≠ true := by
      intro hA
      rw [Bool.and_eq_true] at hA
      exact h1 ⟨List.elem_iff.1 hA.1, List.elem_iff.1 hA.2⟩
    rw [decomposeSubtasks, if_neg hA, if_pos h2]
    constructor
    · rw [List.map_map]
      have : ((fun s : SwarmTask => s.requirements) ∘ (fun p : Nat × String =>
          ({ id := task.id ++ "_sub_" ++ toString p.1
             description := "Subtask " ++ toString (p.1 + 1) ++ ": " ++ task.description
             requirements := [p.2]
             priority := task.priority
             assignedNodes := none
             status := TaskStatus.pending
             createdAt := now } : SwarmTask))) =
          (fun r : String => [r]) ∘ Prod.snd := rfl
      rw [this, ← List.map_map, List.enum_map_snd]
    · intro s hs
      obtain ⟨p, hp, rfl⟩ := List.mem_map.1 hs
      rfl
  · intro h1 h2
    have hA : (task.requirements.contains "data_processing" &&
        task.requirements.contains "analysis") ≠ true := by
      intro hA
      rw [Bool.and_eq_true] at hA
      exact h1 ⟨List.elem_iff.1 hA.1, List.elem_iff.1 hA.2⟩
    rw [decomposeSubtasks, if_neg hA, if_neg h2]
  · intro h
    rw [decomposeTask, h]

/-- C7: `findSuitableNodes` returns exactly the nodes where every requirement
is a substring of some capability, `loadFactor < 0.8` and `reputation > 50`
(so any node with `loadFactor ≥ 0.8` or `reputation ≤ 50` is excluded even
with a full capability match), sorted descending by
`calculateNodeScore = 40·match + 30·(1-load) + 30·(reputation/100)`.  The
hypothesis keeps the statement to nonempty requirement lists: with no
requirements the source's `capabilityMatch` is a JavaScript `0/0 = NaN` and
the sort order is unspecified. -/
theorem findSuitableNodes_correct (nodes : List SwarmNode) (task : SwarmTask)
    (_hreq : task.requirements ≠ []) :
    (∀ n, n ∈ findSuitableNodes nodes task ↔
      (n ∈ nodes ∧
        (∀ req ∈ task.requirements, ∃ cap ∈ n.capabilities, strIncludes cap req = true) ∧
        n.loadFactor < 8/10 ∧ 50 < n.reputation)) ∧
    List.Sorted (fun a b => calculateNodeScore b task ≤ calculateNodeScore a task)
      (findSuitableNodes nodes task) ∧
    (∀ n ∈ nodes, (8/10 ≤ n.loadFactor ∨ n.reputation ≤ 50) →
      n ∉ findSuitableNodes nodes task) := by
  have hmem : ∀ n, n ∈ findSuitableNodes nodes task ↔
      (n ∈ nodes ∧
        (∀ req ∈ task.requirements, ∃ cap ∈ n.capabilities, strIncludes cap req = true) ∧
        n.loadFactor < 8/10 ∧ 50 < n.reputation) := by
    intro n
    simp only [findSuitableNodes, List.mem_insertionSort, List.mem_filter,
      Bool.and_eq_true, List.all_eq_true, List.any_eq_true, decide_eq_true_eq]
    tauto
  refine ⟨hmem, ?_, ?_⟩
  · simp only [findSuitableNodes]
    haveI hto : IsTotal SwarmNode
        (fun a b => calculateNodeScore b task ≤ calculateNodeScore a task) :=
      ⟨fun a b => le_total _ _⟩
    haveI htr : IsTrans SwarmNode
        (fun a b => calculateNodeScore b task ≤ calculateNodeScore a task) :=
      ⟨fun a b c hab hbc => le_trans hbc hab⟩
    exact List.sorted_insertionSort _ _
  · intro n _ hbad hn
    rcases ((hmem n).1 hn).2.2 with ⟨hl, hr⟩
    rcases hbad with hb | hb
    · exact absurd hl (not_lt.2 hb)
    · exact absurd hr (not_lt.2 hb)

/-- Witness for the candidate-search claim on a concrete node set and task. -/
theorem findSuitableNodes_witness :
    List.Sorted (fun a b => calculateNodeScore b chainTask ≤ calculateNodeScore a chainTask)
      (findSuitableNodes chainNodes chainTask) :=
  (findSuitableNodes_correct chainNodes chainTask (by decide)).2.1

/-- A terminal or pending task is safe for every node id. -/
theorem safeTask_of_status {t : SwarmTask} (nodeId : String)
    (h : t.status = TaskStatus.pending ∨ t.status = TaskStatus.completed ∨
      t.status = TaskStatus.failed) : safeTask nodeId t := by
  intro hs
  rcases h with h | h | h <;> rw [h] at hs <;> rcases hs with hs | hs <;> cases hs

/-- Tasks in the result of `directAssignTask` are untouched originals with a
different id, or the processed task, which ends `completed` or `failed`. -/
theorem mem_directAssignTask_tasks {execOk : String → String → Bool}
    {st : SwarmCoordinator} {task : SwarmTask} {node : SwarmNode} {t : SwarmTask}
    (h : t ∈ ((directAssignTask execOk st task node).1).tasks) :
    (t ∈ st.tasks ∧ t.id ≠ task.id) ∨
      (t.id = task.id ∧ (t.status = TaskStatus.completed ∨ t.status = TaskStatus.failed)) := by
  unfold directAssignTask at h
  by_cases hex : execOk node.id task.id = true
  · rw [if_pos hex] at h
    simp only at h
    rcases mem_setTask h with h2 | h2
    · right
      rw [h2]
      exact ⟨rfl, Or.inl rfl⟩
    · exact Or.inl h2
  · rw [if_neg hex] at h
    simp only at h
    rcases mem_setTask h with h2 | h2
    · right
      rw [h2]
      exact ⟨rfl, Or.inr rfl⟩
    · exact Or.inl h2

/-- Tasks in the result of `assignTask` are originals or end terminal. -/
theorem mem_assignTask_tasks {execOk : String → String → Bool}
    {st : SwarmCoordinator} {task : SwarmTask} {t : SwarmTask}
    (h : t ∈ ((assignTask execOk st task).1).tasks) :
    t ∈ st.tasks ∨
      (t.id = task.id ∧ (t.status = TaskStatus.completed ∨ t.status = TaskStatus.failed)) := by
  unfold assignTask at h
  rcases hf : findSuitableNodes st.nodes task with _ | ⟨best, rest⟩
  · rw [hf] at h
    exact Or.inl h
  · rw [hf] at h
    dsimp only at h
    by_cases hp : (decide (task.priority ≥ 8) || task.requirements.contains "critical") = true
    · rw [if_pos hp] at h
      exact Or.inl h
    · rw [if_neg hp] at h
      rcases mem_directAssignTask_tasks h with h2 | h2
      · exact Or.inl h2.1
      · exact Or.inr h2

/-- Tasks in the result of one reassignment step are safe or untouched
originals with a different id. -/
theorem mem_reassignOne_tasks {execOk : String → String → Bool} {nodeId : String}
    {st : SwarmCoordinator} {u : SwarmTask} {t : SwarmTask}
    (h : t ∈ ((reassignOne execOk nodeId st u)).tasks) :
    safeTask nodeId t ∨ (t ∈ st.tasks ∧ t.id ≠ u.id) := by
  unfold reassignOne at h
  rcases mem_assignTask_tasks h with h2 | h2
  · simp only at h2
    rcases mem_setTask h2 with h3 | h3
    · left
      rw [h3]
      exact safeTask_of_status nodeId (Or.inl rfl)
    · exact Or.inr h3
  · exact Or.inl (safeTask_of_status nodeId (Or.inr h2.2))

/-- Folding the reassignment step over a worklist that covers every unsafe
task leaves only safe tasks. -/
theorem reassign_fold_safe (execOk : String → String → Bool) (nodeId : String)
    (L : List SwarmTask) (st : SwarmCoordinator)
    (hinv : ∀ t ∈ st.tasks, safeTask nodeId t ∨ ∃ v ∈ L, v.id = t.id) :
    ∀ t ∈ (L.foldl (reassignOne execOk nodeId) st).tasks, safeTask nodeId t := by
  induction L generalizing st with
  | nil =>
    intro t ht
    rcases hinv t ht with h | ⟨v, hv, _⟩
    · exact h
    · cases hv
  | cons u L ih =>
    intro t ht
    refine ih (reassignOne execOk nodeId st u) ?_ t ht
    intro s hs
    rcases mem_reassignOne_tasks hs with h | ⟨h1, h2⟩
    · exact Or.inl h
    · rcases hinv s h1 with h | ⟨v, hv, hvid⟩
      · exact Or.inl h
      · rcases List.mem_cons.1 hv with rfl | hv2
        · exact absurd hvid.symm h2
        · exact Or.inr ⟨v, hv2, hvid⟩

/-- C5 (amended): after `unregisterNode(id)` for a registered id, `getNodes()`
no longer contains a node with that id, and no task left `assigned` or
`executing` references `id` in its `assignedNodes` (the node's
assigned/executing tasks are reset to pending, stripped of `id` and
reassigned before the record is deleted); tasks already in a pending or
terminal status may keep `id` in `assignedNodes`. -/
theorem unregisterNode_correct (execOk : String → String → Bool)
    (st : SwarmCoordinator) (nodeId : String) (now : Nat)
    (h : st.nodes.any (fun n => n.id == nodeId) = true) :
    (∀ n ∈ (unregisterNode execOk st nodeId now).nodes, n.id ≠ nodeId) ∧
    (∀ t ∈ (unregisterNode execOk st nodeId now).tasks, safeTask nodeId t) := by
  unfold unregisterNode
  rw [if_pos h]
  constructor
  · intro n hn
    simp only [updateMetrics] at hn
    have := List.of_mem_filter hn
    simpa using this
  · intro t ht
    simp only [updateMetrics] at ht
    refine reassign_fold_safe execOk nodeId _ st ?_ t ht
    intro s hs
    by_cases hsafe : safeTask nodeId s
    · exact Or.inl hsafe
    · right
      refine ⟨s, ?_, rfl⟩
      simp only [safeTask, not_forall] at hsafe
      obtain ⟨hstat, hmem⟩ := hsafe
      rw [List.mem_filter]
      refine ⟨hs, ?_⟩
      simp only [Bool.and_eq_true, Bool.or_eq_true, beq_iff_eq]
      constructor
      · simpa using List.elem_iff.2 (not_not.1 hmem)
      · exact hstat
    
/-- Witness for the amended unregistration claim at a concrete state. -/
theorem unregisterNode_witness :
    (∀ n ∈ (unregisterNode alwaysOk c5state "n1" 0).nodes, n.id ≠ "n1") ∧
    (∀ t ∈ (unregisterNode alwaysOk c5state "n1" 0).tasks, safeTask "n1" t) :=
  unregisterNode_correct alwaysOk c5state "n1" 0 (by decide)

/-- C5 (counterexample to the original claim): unregistering the only node
leaves a FAILED task still referencing it in `assignedNodes`, because
`reassignNodeTasks` only touches `assigned`/`executing` tasks. -/
theorem unregisterNode_leaves_failed_reference :
    (unregisterNode alwaysOk c5state "n1" 0).nodes = [] ∧
    (unregisterNode alwaysOk c5state "n1" 0).tasks.map (fun t => t.assignedNodes) =
      [some ["n1"]] := by
  constructor <;> decide

/-- Attempt 1 evaluated: the task fails on node `a`, ending with
`assignedNodes = ["a"]` and a retry scheduled. -/
theorem chainStep1_eq : chainStep1 = (chainState1, true) := by
  norm_num [chainStep1, assignTask, findSuitableNodes, chainState0, chainState1,
    chainNodes, chainTask, calculateNodeScore, List.insertionSort,
    List.orderedInsert, strIncludes, strIncludes.go, charsStartWith,
    directAssignTask, alwaysFail, applyAssignLoad, applyFailure, setTask,
    setNode, maxTaskRetries, nodeRepA, nodeRepB, taskTried,
    show ("critical" = "x") = False from by simp,
    show ("b" = "a") = False from by simp]

/-- Attempt 2 evaluated: the retry excludes `["a"]`, assigns node `b`, fails,
OVERWRITING `assignedNodes` with `["b"]`; a retry is scheduled. -/
theorem chainStep2_eq : chainStep2 = (chainState2, true) := by
  have h2 : retryTask alwaysFail chainState1 "t" = (chainState2, true) := by
    norm_num [retryTask, chainState1, chainState2, taskTried, assignTask,
      findSuitableNodes, calculateNodeScore, List.insertionSort,
      List.orderedInsert, strIncludes, strIncludes.go, charsStartWith,
      directAssignTask, alwaysFail, applyAssignLoad, applyFailure, setTask,
      setNode, maxTaskRetries, nodeRepA, nodeRepB,
      show ("critical" = "x") = False from by simp,
      show ("b" = "a") = False from by simp,
      show ("a" = "b") = False from by simp]
  rw [chainStep2, chainStep1_eq]
  exact h2

/-- Attempt 3 evaluated: the retry now only excludes `["b"]`, so it assigns
node `a` again even though `a` failed the task at attempt 1. -/
theorem chainStep3_eq : chainStep3 = (chainState3, true) := by
  have h3 : retryTask alwaysFail chainState2 "t" = (chainState3, true) := by
    norm_num [retryTask, chainState2, chainState3, taskTried, assignTask,
      findSuitableNodes, calculateNodeScore, List.insertionSort,
      List.orderedInsert, strIncludes, strIncludes.go, charsStartWith,
      directAssignTask, alwaysFail, applyAssignLoad, applyFailure, setTask,
      setNode, maxTaskRetries, nodeRepA, nodeRepB,
      show ("critical" = "x") = False from by simp,
      show ("b" = "a") = False from by simp,
      show ("a" = "b") = False from by simp]
  rw [chainStep3, chainStep2_eq]
  exact h3

/-- Attempt 4 evaluated: a fourth assignment still happens. -/
theorem chainStep4_eq : chainStep4 = (chainState4, true) := by
  have h4 : retryTask alwaysFail chainState3 "t" = (chainState4, true) := by
    norm_num [retryTask, chainState3, chainState4, taskTried, assignTask,
      findSuitableNodes, calculateNodeScore, List.insertionSort,
      List.orderedInsert, strIncludes, strIncludes.go, charsStartWith,
      directAssignTask, alwaysFail, applyAssignLoad, applyFailure, setTask,
      setNode, maxTaskRetries, nodeRepA, nodeRepB,
      show ("critical" = "x") = False from by simp,
      show ("b" = "a") = False from by simp,
      show ("a" = "b") = False from by simp]
  rw [chainStep4, chainStep3_eq]
  exact h4

/-- C3 (failing run): with two suitable nodes `a`, `b` and a task whose
execution always fails, attempt 1 assigns `a`, the first retry assigns `b`,
and the second retry assigns `a` AGAIN — a node already tried for this task —
because `directAssignTask` overwrites `task.assignedNodes` with the latest
node only, so the exclusion list never accumulates. -/
theorem retry_reassigns_previously_tried_node :
    chainStep1.1.tasks.map (fun t => t.assignedNodes) = [some ["a"]] ∧
    chainStep2.1.tasks.map (fun t => t.assignedNodes) = [some ["b"]] ∧
    chainStep3.1.tasks.map (fun t => t.assignedNodes) = [some ["a"]] := by
  rw [chainStep1_eq, chainStep2_eq, chainStep3_eq]
  exact ⟨rfl, rfl, rfl⟩

/-- C4 (failing run): the retry guard `assignedNodes.length < maxTaskRetries`
compares a list that always has length 1 (it is overwritten at each
assignment), so after the third failed attempt a retry is STILL scheduled and
a fourth assignment executes: the budget of `maxTaskRetries = 3` attempts is
never enforced. -/
theorem retry_budget_never_exhausted :
    maxTaskRetries = 3 ∧
    chainStep1.2 = true ∧ chainStep2.2 = true ∧ chainStep3.2 = true ∧
    chainStep4.1.tasks.map (fun t => t.assignedNodes) = [some ["b"]] := by
  rw [chainStep1_eq, chainStep2_eq, chainStep3_eq, chainStep4_eq]
  exact ⟨rfl, rfl, rfl, rfl, rfl⟩
